import Mathlib

/-!
Shallow embedding of the core of the northstar container runtime:
the init process (capability pruning, rlimits, the exec/supervise
message loop), the runtime-side process supervisor (exit-status
decoding, kill, spawn), the environment/argv builders, the pipe
flush path, and the control-plane client multiplexer.

Each definition is translated from the corresponding Rust source
function; theorems below settle the specification claims.
-/

namespace Northstar

/-! ## Capability pruning (`Init::drop_privileges`,
`src/northstar-runtime/src/runtime/fork/init/mod.rs`)

Capabilities are modelled as natural numbers; the per-process kernel
capability state holds the five kernel sets. -/

/-- Kernel capability state of a process: the five capability sets. -/
structure CapsState where
  effective : Finset ℕ
  permitted : Finset ℕ
  inheritable : Finset ℕ
  ambient : Finset ℕ
  bounding : Finset ℕ
deriving DecidableEq

/-- `Init::drop_privileges`: read the bounding set, retain the
capabilities not in the descriptor keep-set, drop each of those from
the bounding set, then write the keep-set into the effective,
permitted, inheritable and ambient sets. -/
def drop_privileges (capabilities : Finset ℕ) (st : CapsState) : CapsState :=
  let set := capabilities
  let bounded := st.bounding.filter (fun c => c ∉ set)
  { effective := set
    permitted := set
    inheritable := set
    ambient := set
    bounding := st.bounding \ bounded }

/-! ## Rlimits (`Init::set_rlimits`) -/

/-- A descriptor rlimit value: optional soft and hard bounds. -/
structure RLimitValue where
  soft : Option ℕ
  hard : Option ℕ
deriving DecidableEq

/-- `rlimit::INFINITY` (`RLIM_INFINITY`, `u64::MAX` on 64-bit Linux). -/
def RLIMIT_INFINITY : ℕ := 18446744073709551615

/-- `Init::set_rlimits`: for each `(resource, limit)` entry install
`(limit.soft.unwrap_or(INFINITY), limit.hard.unwrap_or(INFINITY))`.
The result is the list of installed `(resource, soft, hard)` triples. -/
def set_rlimits (rlimits : List (ℕ × RLimitValue)) : List (ℕ × ℕ × ℕ) :=
  rlimits.map fun rl =>
    (rl.1, rl.2.soft.getD RLIMIT_INFINITY, rl.2.hard.getD RLIMIT_INFINITY)

/-! ## Init message loop (`Init::run`) -/

/-- Exit status as used on the init-to-runtime socket
(`runtime::ExitStatus`): `Exit(i32)` or `Signalled(u8)`. -/
inductive ExitStatusI where
  | exit (code : ℤ)
  | signalled (sig : ℕ)
deriving DecidableEq

/-- Message between init and the runtime (`fork::init::Message`). -/
inductive Message where
  | forked (pid : ℕ)
  | exit (pid : ℕ) (status : ExitStatusI)
  | exec (path : String) (args : List String) (env : List String)
deriving DecidableEq

/-- One outcome of the `waitpid` call inside init's supervise loop. -/
inductive WaitOutcome where
  | exited (code : ℤ)
  | signaled (sig : ℕ)
  | stopped
  | continued
  | eintr
deriving DecidableEq

/-- Init's `waitpid` loop on its forked child: `Exited` breaks with
`Exit(code)`, `Signaled` breaks with `Signalled(sig as u8)`,
`Stopped`/`Continued`/`EINTR` continue; an exhausted oracle models a
`waitpid` failure, which panics (`none`). -/
def wait_child : List WaitOutcome → Option ExitStatusI
  | [] => none
  | WaitOutcome.exited c :: _ => some (ExitStatusI.exit c)
  | WaitOutcome.signaled s :: _ => some (ExitStatusI.signalled (s % 256))
  | WaitOutcome.stopped :: rest => wait_child rest
  | WaitOutcome.continued :: rest => wait_child rest
  | WaitOutcome.eintr :: rest => wait_child rest

/-- `Init::run`'s message loop, as a function of the first `recv`
result (`none` models a recv error, `some none` orderly EOF), the pid
the fork produces and the `waitpid` oracle. Every branch of the Rust
loop either exits the process or panics, so only one `recv` happens.
Returns the list of messages init sends and its exit code, or `none`
on panic. -/
def Init.run (recv : Option (Option Message)) (forkPid : ℕ)
    (waits : List WaitOutcome) : Option (List Message × ℕ) :=
  match recv with
  | none => none
  | some none => some ([], 0)
  | some (some (Message.exec _ _ _)) =>
      match wait_child waits with
      | some exit_status =>
          some ([Message.forked forkPid,
                 Message.exit forkPid exit_status], 0)
      | none => none
  | some (some (Message.forked _)) => none
  | some (some (Message.exit _ _)) => none

/-- Helper for the pairing invariant: scan the trace carrying the pid
of the last `Forked` still awaiting its `Exit`, together with how many
matching `Exit` messages have been seen for it so far. -/
def pairedAux : Option (ℕ × ℕ) → List Message → Bool
  | none, [] => true
  | some st, [] => st.2 == 1
  | none, Message.forked pid :: rest => pairedAux (some (pid, 0)) rest
  | none, Message.exit _ _ :: rest => pairedAux none rest
  | none, Message.exec _ _ _ :: rest => pairedAux none rest
  | some st, Message.forked pid2 :: rest =>
      (st.2 == 1) && pairedAux (some (pid2, 0)) rest
  | some st, Message.exit p _ :: rest =>
      pairedAux (some (st.1, if p == st.1 then st.2 + 1 else st.2)) rest
  | some st, Message.exec _ _ _ :: rest => pairedAux (some st) rest

/-- The Forked/Exit pairing invariant on a trace of sent messages:
after every `Forked{pid}` there is exactly one `Exit{pid, _}` before
any other `Forked` (or the end of the trace). -/
def pairedOk (l : List Message) : Bool := pairedAux none l

end Northstar

namespace Northstar

/-! ## Exit-status decoding in the runtime's wait task
(`exit_status`, `src/northstar/src/runtime/process/mod.rs`) -/

/-- Offset for signal-as-exit-code encoding. -/
def SIGNAL_OFFSET : ℤ := 128

/-- `nix::sys::signal::Signal::try_from` succeeds exactly for the
signal numbers defined on Linux, `1..=31`. -/
def validSignal (n : ℤ) : Bool := 1 ≤ n && n ≤ 31

/-- Runtime-side exit status (`ExitStatus::Exit` / `ExitStatus::Signaled`). -/
inductive ExitStatusR where
  | exit (code : ℤ)
  | signaled (sig : ℤ)
deriving DecidableEq

/-- The `WaitStatus::Exited(pid, code)` arm of `exit_status`: if
`SIGNAL_OFFSET <= code` the code is re-decoded as a signal via
`Signal::try_from(code - SIGNAL_OFFSET)`, whose failure panics
(`expect("Invalid signal offset")`, modelled as `none`); otherwise the
status is `Exit(code)`. -/
def decode_exit_code (code : ℤ) : Option ExitStatusR :=
  if SIGNAL_OFFSET ≤ code then
    if validSignal (code - SIGNAL_OFFSET) then
      some (ExitStatusR.signaled (code - SIGNAL_OFFSET))
    else none
  else some (ExitStatusR.exit code)

/-! ## `Process::kill` -/

/-- Errno values relevant to the supervisor paths. -/
def ESRCH : ℕ := 3

/-- Result of the `kill(2)` syscall. -/
inductive KillOutcome where
  | ok
  | err (errno : ℕ)
deriving DecidableEq

/-- `Process::kill(signal)`: signals the process group `-pid`.
Returns the signalled target together with the method's result:
`ESRCH` is swallowed (`Ok(())`), any other failure becomes an
`Error::Os` carrying the errno. -/
def Process.kill (pid : ℤ) (outcome : KillOutcome) :
    ℤ × Except ℕ Unit :=
  let process_group := -pid
  (process_group,
    match outcome with
    | KillOutcome.ok => Except.ok ()
    | KillOutcome.err errno =>
        if errno = ESRCH then Except.ok () else Except.error errno)

/-! ## `Process::spawn` -/

/-- `SIGKILL`. -/
def SIGKILL : ℕ := 9

/-- Whether init acknowledged the checkpoint within the 5-second
deadline. -/
inductive SpawnAck where
  | acked
  | timedOut
deriving DecidableEq

/-- Side effects of `Process::spawn`: the signal sent on timeout, if
any, as a `(target, signal)` pair. -/
structure SpawnEffects where
  killed : Option (ℤ × ℕ)
deriving DecidableEq

/-- `Process::spawn`: take the checkpoint (panic, `none`, if it was
already taken), notify it, then wait for init's acknowledgement with
a 5-second timeout. On timeout, send `SIGKILL` to the process group
`-pid`, ignoring the kill result (`killOutcome` is dead). The method
returns `Ok(())` on every non-panicking path. -/
def Process.spawn (pid : ℤ) (checkpoint : Option Unit) (ack : SpawnAck)
    (killOutcome : KillOutcome) : Option (SpawnEffects × Except ℕ Unit) :=
  match checkpoint with
  | none => none
  | some _ =>
      match ack with
      | SpawnAck.acked => some (⟨none⟩, Except.ok ())
      | SpawnAck.timedOut =>
          match killOutcome with
          | _ => some (⟨some (-pid, SIGKILL)⟩, Except.ok ())

/-! ## Argv and environment construction for `execve`
(`init_argv` and `env`, `src/northstar/src/runtime/process/mod.rs`) -/

/-- The manifest fields the launcher consumes. Environments are
key-value maps, modelled as association lists. -/
structure Manifest where
  name : String
  version : String
  init : Option String
  args : Option (List String)
  env : Option (List (String × String))

/-- Modelled from the spec: the name of the container-name environment
variable, `<NAME_VAR>` (`ENV_NAME` is declared outside the provided
sources). The claims do not depend on its value. -/
def ENV_NAME : String := "NAME"

/-- Modelled from the spec: the name of the container-version
environment variable, `<VERSION_VAR>` (`ENV_VERSION` is declared
outside the provided sources). -/
def ENV_VERSION : String := "VERSION"

/-- `HashMap::contains_key` on an association list. -/
def contains_key (l : List (String × String)) (k : String) : Bool :=
  l.any fun kv => kv.1 == k

/-- Render a key-value pair as a `KEY=VALUE` environment string. -/
def fmtKV (kv : String × String) : String := kv.1 ++ "=" ++ kv.2

/-- `fn env(manifest, env)`: push the name and version variables, then
extend with the manifest env entries whose key is not declared in the
per-call env, then extend with all per-call entries. -/
def env (manifest : Manifest) (envp : Option (List (String × String))) :
    List String :=
  let result := [fmtKV (ENV_NAME, manifest.name),
                 fmtKV (ENV_VERSION, manifest.version)]
  let result := match manifest.env with
    | some e =>
        result ++ (e.filter fun kv =>
          match envp with
          | some envp => !(contains_key envp kv.1)
          | none => true).map fmtKV
    | none => result
  match envp with
  | some envp => result ++ envp.map fmtKV
  | none => result

/-- The environment as the spec words it: the name variable, the
version variable, then every manifest env entry whose key is not
present in the per-call env, then all per-call env entries. -/
def env_specified (manifest : Manifest)
    (envp : Option (List (String × String))) : List String :=
  let percall := envp.getD []
  [fmtKV (ENV_NAME, manifest.name), fmtKV (ENV_VERSION, manifest.version)]
    ++ ((manifest.env.getD []).filter
          fun kv => !(contains_key percall kv.1)).map fmtKV
    ++ percall.map fmtKV

/-- `fn init_argv(manifest, args)`: the init path comes from the
manifest (a resource container without one panics, `none`); per-call
args discard the manifest args, otherwise the manifest args or nothing
are used; argv is the init path followed by the chosen args. -/
def init_argv (manifest : Manifest) (args : Option (List String)) :
    Option (String × List String) :=
  match manifest.init with
  | none => none
  | some ini =>
      let chosen : List String :=
        match manifest.args, args with
        | none, none => []
        | none, some a => a
        | some m, none => m
        | some _, some a => a
      some (ini, ini :: chosen)

/-- Argv as the spec words it: per-call args, if provided, replace the
manifest args entirely; `argv[0]` is always the init path. -/
def init_argv_specified (manifest : Manifest) (args : Option (List String)) :
    Option (String × List String) :=
  manifest.init.map fun ini =>
    (ini, ini :: args.getD (manifest.args.getD []))

/-! ## Pipe flush (`PipeWrite::flush` and `AsyncPipeWrite::poll_flush`,
`src/northstar/src/runtime/ipc/pipe.rs`) -/

/-- The kind of open file an fd refers to, as far as `fsync` cares. -/
inductive FdKind where
  | pipeFd
  | regularFile
deriving DecidableEq

/-- `EINVAL`. -/
def EINVAL : ℕ := 22

/-- Modelled from the spec: Linux `fsync(2)` semantics on the fd kinds
in play — on a pipe fd `fsync` fails with `EINVAL` (the spec's design
note), on a regular file it succeeds. -/
def fsync : FdKind → Except ℕ Unit
  | FdKind.pipeFd => Except.error EINVAL
  | FdKind.regularFile => Except.ok ()

/-- `PipeWrite::flush`: `unistd::fsync(self.as_raw_fd())`. -/
def PipeWrite.flush (fd : FdKind) : Except ℕ Unit := fsync fd

/-- `AsyncPipeWrite::poll_flush`: `fsync(fd)?; Poll::Ready(Ok(()))` —
the `?` surfaces the fsync failure as the poll result. -/
def AsyncPipeWrite.poll_flush (fd : FdKind) : Except ℕ Unit :=
  match fsync fd with
  | Except.error e => Except.error e
  | Except.ok () => Except.ok ()

/-! ## Control-plane client multiplexer (`Client::new`'s select loop,
`src/northstar/src/api/client.rs`) -/

/-- Client error kinds (`api::client::Error`). -/
inductive ClientError where
  | ioError
  | timeout
  | stopped
  | protocol
  | pendingRequest
  | api
deriving DecidableEq

/-- One event the multiplexer's `select!` can wake on. Requests,
responses and notifications are abstracted to numeric identifiers;
waiters are the identifiers of their oneshot channels. -/
inductive MuxEvent where
  | inboundRequest
  | inboundResponse (r : ℕ)
  | inboundNote (n : ℕ)
  | inboundIoError
  | inboundEof
  | outboundRequest (r : ℕ) (waiter : ℕ)
  | outboundClosed
deriving DecidableEq

/-- Observable actions of one multiplexer step. -/
inductive MuxAction where
  | deliverOk (waiter : ℕ) (r : ℕ)
  | deliverErr (waiter : ℕ) (e : ClientError)
  | pushNote (n : ℕ)
  | sendRequest (r : ℕ)
deriving DecidableEq

/-- Multiplexer state: the waiter of the at-most-one in-flight
request (`response_tx`). -/
structure MuxState where
  pending : Option ℕ
deriving DecidableEq

/-- One iteration of the client's select loop. `sendOk` tells whether
`connection.send` succeeds. The third component is `none` while the
loop continues, `some none` on clean exit, `some (some e)` when the
loop breaks with error `e`. -/
def mux_step (sendOk : Bool) (st : MuxState) (ev : MuxEvent) :
    MuxState × List MuxAction × Option (Option ClientError) :=
  match ev with
  | MuxEvent.inboundRequest => (st, [], some (some ClientError.protocol))
  | MuxEvent.inboundResponse r =>
      match st.pending with
      | some w => (⟨none⟩, [MuxAction.deliverOk w r], none)
      | none => (st, [], some (some ClientError.protocol))
  | MuxEvent.inboundNote n => (st, [MuxAction.pushNote n], none)
  | MuxEvent.inboundIoError => (st, [], some (some ClientError.ioError))
  | MuxEvent.inboundEof => (st, [], some none)
  | MuxEvent.outboundRequest r w =>
      match st.pending with
      | some _ => (st, [MuxAction.deliverErr w ClientError.pendingRequest], none)
      | none =>
          if sendOk then (⟨some w⟩, [MuxAction.sendRequest r], none)
          else (st, [MuxAction.deliverErr w ClientError.ioError], none)
  | MuxEvent.outboundClosed => (st, [], some none)

/-! ## Theorems -/

/-- C1: after `drop_privileges`, every capability not in the keep-set
is absent from the effective, permitted, inheritable, ambient and
bounding sets, and the keep-set itself is written into the effective,
permitted, inheritable and ambient sets. -/
theorem drop_privileges_prunes (keep : Finset ℕ) (st : CapsState) (c : ℕ)
    (hc : c ∉ keep) :
    c ∉ (drop_privileges keep st).effective ∧
    c ∉ (drop_privileges keep st).permitted ∧
    c ∉ (drop_privileges keep st).inheritable ∧
    c ∉ (drop_privileges keep st).ambient ∧
    c ∉ (drop_privileges keep st).bounding ∧
    (drop_privileges keep st).effective = keep ∧
    (drop_privileges keep st).permitted = keep ∧
    (drop_privileges keep st).inheritable = keep ∧
    (drop_privileges keep st).ambient = keep := by
  refine ⟨hc, hc, hc, hc, ?_, rfl, rfl, rfl, rfl⟩
  simp only [drop_privileges, Finset.mem_sdiff, Finset.mem_filter]
  tauto

/-- C1 witness: a concrete state and keep-set, with capability 2
outside the keep-set. -/
theorem drop_privileges_prunes_witness :
    (2 : ℕ) ∉ ({1} : Finset ℕ) ∧
    (2 ∉ (drop_privileges {1} ⟨{0, 1}, {0, 1}, {0, 1}, {0, 1}, {0, 1, 2}⟩).effective ∧
     2 ∉ (drop_privileges {1} ⟨{0, 1}, {0, 1}, {0, 1}, {0, 1}, {0, 1, 2}⟩).permitted ∧
     2 ∉ (drop_privileges {1} ⟨{0, 1}, {0, 1}, {0, 1}, {0, 1}, {0, 1, 2}⟩).inheritable ∧
     2 ∉ (drop_privileges {1} ⟨{0, 1}, {0, 1}, {0, 1}, {0, 1}, {0, 1, 2}⟩).ambient ∧
     2 ∉ (drop_privileges {1} ⟨{0, 1}, {0, 1}, {0, 1}, {0, 1}, {0, 1, 2}⟩).bounding ∧
     (drop_privileges {1} ⟨{0, 1}, {0, 1}, {0, 1}, {0, 1}, {0, 1, 2}⟩).effective = {1} ∧
     (drop_privileges {1} ⟨{0, 1}, {0, 1}, {0, 1}, {0, 1}, {0, 1, 2}⟩).permitted = {1} ∧
     (drop_privileges {1} ⟨{0, 1}, {0, 1}, {0, 1}, {0, 1}, {0, 1, 2}⟩).inheritable = {1} ∧
     (drop_privileges {1} ⟨{0, 1}, {0, 1}, {0, 1}, {0, 1}, {0, 1, 2}⟩).ambient = {1}) :=
  ⟨by decide, drop_privileges_prunes {1} ⟨{0, 1}, {0, 1}, {0, 1}, {0, 1}, {0, 1, 2}⟩ 2 (by decide)⟩

/-- C2: whenever `Init::run` terminates by `exit` rather than panic,
its exit code is 0, the trace it sent satisfies the Forked/Exit
pairing invariant, and in the `Exec` case the trace is exactly
`Forked{pid}` followed by `Exit{pid, status}` for the child's terminal
wait status. -/
theorem init_run_forked_exit_paired (recv : Option (Option Message))
    (forkPid : ℕ) (waits : List WaitOutcome) (trace : List Message) (code : ℕ)
    (h : Init.run recv forkPid waits = some (trace, code)) :
    code = 0 ∧ pairedOk trace = true ∧
    (∀ path args envl st,
      recv = some (some (Message.exec path args envl)) →
      wait_child waits = some st →
      trace = [Message.forked forkPid, Message.exit forkPid st]) := by
  match recv with
  | none => exact absurd h (by simp [Init.run])
  | some none =>
      simp only [Init.run, Option.some.injEq, Prod.mk.injEq] at h
      refine ⟨h.2.symm, ?_, ?_⟩
      · rw [← h.1]; rfl
      · intro path args envl st hrecv
        exact absurd hrecv (by simp)
  | some (some (Message.forked p)) => exact absurd h (by simp [Init.run])
  | some (some (Message.exit p s)) => exact absurd h (by simp [Init.run])
  | some (some (Message.exec path args envl)) =>
      match hw : wait_child waits with
      | none => rw [Init.run, hw] at h; exact absurd h (by simp)
      | some st =>
          rw [Init.run, hw] at h
          simp only [Option.some.injEq, Prod.mk.injEq] at h
          refine ⟨h.2.symm, ?_, ?_⟩
          · rw [← h.1]
            simp [pairedOk, pairedAux]
          · intro path2 args2 envl2 st2 _ hw2
            have hst : st = st2 := Option.some.inj hw2
            rw [← h.1, hst]

/-- C2 witness: a concrete `Exec` followed by a normal child exit. -/
theorem init_run_forked_exit_paired_witness :
    (0 : ℕ) = 0 ∧
    pairedOk [Message.forked 7, Message.exit 7 (ExitStatusI.exit 0)] = true ∧
    (∀ path args envl st,
      (some (some (Message.exec "/init" [] [])) :
        Option (Option Message)) = some (some (Message.exec path args envl)) →
      wait_child [WaitOutcome.eintr, WaitOutcome.exited 0] = some st →
      [Message.forked 7, Message.exit 7 (ExitStatusI.exit 0)] =
        [Message.forked 7, Message.exit 7 st]) :=
  init_run_forked_exit_paired (some (some (Message.exec "/init" [] []))) 7
    [WaitOutcome.eintr, WaitOutcome.exited 0]
    [Message.forked 7, Message.exit 7 (ExitStatusI.exit 0)] 0 rfl

/-- C3 counterexample: the claim says every exit code at least 128
decodes to `Signaled(code - 128)`, but at code 128 the decoder panics
on `Signal::try_from(0)` instead of producing `Signaled(0)`. -/
theorem decode_exit_code_128_panics :
    decode_exit_code 128 = none ∧
    decode_exit_code 128 ≠ some (ExitStatusR.signaled 0) := by
  refine ⟨rfl, ?_⟩
  intro h
  exact Option.noConfusion h

/-- C3 (amended): exit codes 0 through 127 decode to `Exit(code)`;
codes 129 through 159 (those whose offset from 128 is a valid Linux
signal number) decode to `Signaled(code - 128)`; code 128 and codes
160 and above make the decoder panic. -/
theorem decode_exit_code_correct (code : ℤ) :
    (0 ≤ code → code ≤ 127 → decode_exit_code code = some (ExitStatusR.exit code)) ∧
    (129 ≤ code → code ≤ 159 →
      decode_exit_code code = some (ExitStatusR.signaled (code - 128))) ∧
    (code = 128 ∨ 160 ≤ code → decode_exit_code code = none) := by
  simp only [decode_exit_code, SIGNAL_OFFSET, validSignal, Bool.and_eq_true,
    decide_eq_true_eq]
  refine ⟨?_, ?_, ?_⟩
  · intro h1 h2
    rw [if_neg (by omega)]
  · intro h1 h2
    rw [if_pos (by omega), if_pos (by omega)]
  · intro h
    rw [if_pos (by omega), if_neg (by omega)]

/-- C3 witness: code 130 decodes as the signal SIGINT carried across
the init/payload boundary. -/
theorem decode_exit_code_correct_witness :
    decode_exit_code 130 = some (ExitStatusR.signaled 2) := by
  have h := (decode_exit_code_correct 130).2.1 (by norm_num) (by norm_num)
  norm_num at h
  exact h

/-- C4: with a request in flight, a second outbound request fails its
waiter with `PendingRequest` and leaves the in-flight waiter
installed; the in-flight request then resolves normally when its
response arrives; with no request in flight and a successful send, the
request goes out and its waiter becomes pending. -/
theorem mux_single_flight (w0 r w2 resp r2 w3 : ℕ) (sendOk sendOk2 : Bool) :
    mux_step sendOk ⟨some w0⟩ (MuxEvent.outboundRequest r w2) =
      (⟨some w0⟩, [MuxAction.deliverErr w2 ClientError.pendingRequest], none) ∧
    mux_step sendOk2 ⟨some w0⟩ (MuxEvent.inboundResponse resp) =
      (⟨none⟩, [MuxAction.deliverOk w0 resp], none) ∧
    mux_step true ⟨none⟩ (MuxEvent.outboundRequest r2 w3) =
      (⟨some w3⟩, [MuxAction.sendRequest r2], none) :=
  ⟨rfl, rfl, rfl⟩

/-- C5: the environment built for `execve` is, in order, the name
variable, the version variable, the manifest env entries whose key is
not present in the per-call env, and all per-call env entries — so a
per-call entry overrides a manifest entry with the same key. -/
theorem env_matches_specification (manifest : Manifest)
    (envp : Option (List (String × String))) :
    env manifest envp = env_specified manifest envp := by
  cases hm : manifest.env <;> cases envp <;>
    simp [env, env_specified, hm, contains_key, List.filter_eq_self]

/-- C6: per-call args, when provided, replace the manifest args
entirely, otherwise the manifest args (possibly empty) are used, and
argv is always the manifest's init path followed by the chosen args. -/
theorem init_argv_matches_specification (manifest : Manifest)
    (args : Option (List String)) :
    init_argv manifest args = init_argv_specified manifest args := by
  cases hi : manifest.init <;> cases hm : manifest.args <;> cases args <;>
    simp [init_argv, init_argv_specified, hi, hm]

/-- C7: every rlimit entry of the descriptor is installed, with the
given soft and hard values and infinity substituted for each
unspecified bound, and nothing else is installed. -/
theorem set_rlimits_applies_every_entry (rlimits : List (ℕ × RLimitValue))
    (r : ℕ) (l : RLimitValue) (h : (r, l) ∈ rlimits) :
    (r, l.soft.getD RLIMIT_INFINITY, l.hard.getD RLIMIT_INFINITY) ∈
      set_rlimits rlimits ∧
    (set_rlimits rlimits).length = rlimits.length := by
  constructor
  · exact List.mem_map_of_mem _ h
  · exact List.length_map _ _

/-- C7 witness: an entry with an unspecified soft bound installs
infinity as its soft value. -/
theorem set_rlimits_applies_every_entry_witness :
    ((2, RLIMIT_INFINITY, 5) ∈ set_rlimits [(2, RLimitValue.mk none (some 5))]) ∧
    (set_rlimits [(2, RLimitValue.mk none (some 5))]).length =
      [(2, RLimitValue.mk none (some 5))].length := by
  have h := set_rlimits_applies_every_entry
    [(2, RLimitValue.mk none (some 5))] 2 (RLimitValue.mk none (some 5))
    (by simp)
  simpa using h

/-- C8: `Process::kill` signals the process group `-pid`; success and
`ESRCH` both yield `Ok(())`, and any other errno surfaces as an `Os`
error carrying that errno. -/
theorem process_kill_semantics (pid : ℤ) (outcome : KillOutcome) :
    (Process.kill pid outcome).1 = -pid ∧
    (Process.kill pid KillOutcome.ok).2 = Except.ok () ∧
    (Process.kill pid (KillOutcome.err ESRCH)).2 = Except.ok () ∧
    (∀ e, e ≠ ESRCH → (Process.kill pid (KillOutcome.err e)).2 = Except.error e) := by
  refine ⟨rfl, rfl, ?_, ?_⟩
  · simp [Process.kill]
  · intro e he
    simp [Process.kill, he]

/-- C8 witness: killing pid 5 targets process group -5; an `EPERM`
failure (errno 1) surfaces as an error while `ESRCH` does not. -/
theorem process_kill_semantics_witness :
    ((Process.kill 5 (KillOutcome.err ESRCH)).1 = -5 ∧
     (Process.kill 5 KillOutcome.ok).2 = Except.ok () ∧
     (Process.kill 5 (KillOutcome.err ESRCH)).2 = Except.ok () ∧
     (∀ e, e ≠ ESRCH →
       (Process.kill 5 (KillOutcome.err e)).2 = Except.error e)) ∧
    (Process.kill 5 (KillOutcome.err 1)).2 = Except.error 1 :=
  ⟨process_kill_semantics 5 (KillOutcome.err ESRCH),
   (process_kill_semantics 5 KillOutcome.ok).2.2.2 1 (by decide)⟩

/-- C9: the code flushes the write end of a pipe with `fsync`, which
on Linux fails with `EINVAL` on a pipe fd, so both the blocking
`flush` and the async `poll_flush` return an error instead of the
no-op the spec prescribes. -/
theorem pipe_flush_errors_einval :
    PipeWrite.flush FdKind.pipeFd = Except.error EINVAL ∧
    AsyncPipeWrite.poll_flush FdKind.pipeFd = Except.error EINVAL ∧
    PipeWrite.flush FdKind.pipeFd ≠ Except.ok () ∧
    AsyncPipeWrite.poll_flush FdKind.pipeFd ≠ Except.ok () := by
  refine ⟨rfl, rfl, ?_, ?_⟩ <;> exact fun h => Except.noConfusion h

/-- C10: with the checkpoint present, `Process::spawn` returns
`Ok(())` on every path: on acknowledgement nothing is signalled, and
on the 5-second timeout `SIGKILL` goes to the process group `-pid`
with the kill result ignored — the timeout is never surfaced as an
error. -/
theorem process_spawn_always_ok (pid : ℤ) (killOutcome : KillOutcome) :
    Process.spawn pid (some ()) SpawnAck.acked killOutcome =
      some (⟨none⟩, Except.ok ()) ∧
    Process.spawn pid (some ()) SpawnAck.timedOut killOutcome =
      some (⟨some (-pid, SIGKILL)⟩, Except.ok ()) :=
  ⟨rfl, rfl⟩

end Northstar
